import Mathlib

/-!
Verification development for the claude-spec-bot repository.

Shallow embedding of the controller (`orchestrator_host/`) and the runner
(`src/poc/`). Machine strings are Lean `String`s; Python `dict`s keyed by
strings become association lists; wall-clock effects (the `updated_at`
timestamp written by `JobState.touch`) and Slack/HTTP side effects are
elided, while the data they carry is modelled explicitly. Threaded code is
modelled as an explicit transition system at the granularity of its
lock-protected sections and individual state-file writes.
-/

namespace SpecBot

set_option maxRecDepth 4000

/-- Python string slicing `s[:n]` (first `n` characters). -/
def pyslice (s : String) (n : Nat) : String := ⟨s.data.take n⟩

/-! ## orchestrator_host/state.py -/

/-- Embeds `VALID_PHASES` from orchestrator_host/state.py line 28: the tuple of
phases accepted by `JobState.set_phase`. -/
def VALID_PHASES : List String :=
  ["QUEUED", "RUNNING", "BLOCKED", "DONE", "FAILED", "CANCELLED"]

/-- Embeds `StepState` dataclass from orchestrator_host/state.py (timestamps elided:
`started_at`/`finished_at` hold wall-clock strings the claims never read). -/
structure StepState where
  id : String
  command : String
  status : String := "pending"
  exit_code : Option Int := none
deriving DecidableEq, Repr

/-- Embeds `JobState` dataclass from orchestrator_host/state.py (wall-clock fields
`created_at`/`updated_at` elided: `touch` only writes the current time). -/
structure JobState where
  job_id : String
  goal : String
  phase : String := "QUEUED"
  requested_by : String := ""
  channel_id : String := ""
  thread_ts : String := ""
  original_message_ts : String := ""
  steps : List StepState := []
  blockers : List String := []
  error : Option String := none
deriving DecidableEq, Repr

/-- Embeds `JobState.set_phase` (state.py lines 90-94): raises `ValueError` (here
`none`) unless the phase is in `VALID_PHASES`; `touch` is a wall-clock write
and is elided. -/
def setPhase (s : JobState) (p : String) : Option JobState :=
  if p ∈ VALID_PHASES then some { s with phase := p } else none

/-- The per-job body of `recover_stale_jobs` (jobs.py lines 196-204): only a
job whose phase is exactly `"RUNNING"` is rewritten to FAILED with the
restart diagnostic, and its running steps are marked failed. -/
def recoverJob (s : JobState) : JobState :=
  if s.phase = "RUNNING" then
    { s with
        phase := "FAILED",
        error := some "Orchestrator restarted while job was running",
        steps := s.steps.map fun st =>
          if st.status = "running" then { st with status := "failed" } else st }
  else s

/-- Embeds `recover_stale_jobs` (jobs.py lines 191-208) applied to the persisted
store, viewed as the list of job states returned by `list_jobs`/`load_state`. -/
def recoverStaleJobs (store : List JobState) : List JobState :=
  store.map recoverJob

/-- The list of job ids `recover_stale_jobs` returns (the jobs it rewrote). -/
def recoveredIds (store : List JobState) : List String :=
  (store.filter fun s => s.phase == "RUNNING").map (·.job_id)

/-! ## orchestrator_host/jobs.py — the JobQueue transition system

The queue (jobs.py lines 56-188) is multi-threaded; we model it as a
transition system whose atomic actions are its lock-protected sections and
the pipeline worker's phase writes. `run_in_runner` results and the timing
of the worker's cancellation checks are abstracted into the nondeterministic
choice of actions, which over-approximates the real interleavings. -/

/-- A pipeline worker thread for the job made current by `_start_next`:
`started = false` until its first statement (the RUNNING save at jobs.py
line 116) has executed. -/
structure Worker where
  job : String
  started : Bool
deriving DecidableEq, Repr

/-- Queue-plus-store state: `queue` is `self._queue`, `cur` is
`self._current_job_id` with the worker's progress, `phase` is the persisted
phase per job id, `cancelEvent` is `self._cancel_event`. -/
structure QState where
  queue : List String
  cur : Option Worker
  phase : String → String
  cancelEvent : Bool

/-- A terminal outcome of the pipeline worker: all steps done (jobs.py line
170), a step failed or the worker raised (lines 163, 178), or cancellation
was observed (lines 122, 147). -/
inductive Outcome
  | jobDone
  | jobFailed
  | jobCancelled
deriving DecidableEq, Repr

/-- The phase string the worker saves for each outcome. -/
def Outcome.phaseOf : Outcome → String
  | jobDone => "DONE"
  | jobFailed => "FAILED"
  | jobCancelled => "CANCELLED"

/-- Atomic actions of the queue: `enqueue`/`cancel` are the lock-protected
public methods; `workerBegin` is the worker's initial RUNNING save;
`workerFinish` is the worker's terminal save followed by the `finally`
block (clear current, promote next) under the lock. -/
inductive QAction
  | enqueue (j : String)
  | cancel (j : String)
  | workerBegin
  | workerFinish (o : Outcome)
deriving DecidableEq, Repr

/-- One step of the queue transition system (jobs.py lines 70-110, 112-188).
`enqueue` appends and, when idle, `_start_next` pops the head, installs it
as current and clears the cancel event. `cancel` removes a queued job and
persists CANCELLED, or sets the cancel event for the current job.
`workerBegin` persists RUNNING for the current job. `workerFinish` persists
a terminal phase and then the `finally` block clears current and promotes
the next queued job. Actions whose preconditions fail are no-ops. -/
def stepQ (s : QState) (a : QAction) : QState :=
  match a with
  | .enqueue j =>
    let q := s.queue ++ [j]
    match s.cur with
    | some _ => { s with queue := q }
    | none =>
      match q with
      | [] => { s with queue := q, cur := none }
      | h :: t => { queue := t, cur := some ⟨h, false⟩, phase := s.phase, cancelEvent := false }
  | .cancel j =>
    if j ∈ s.queue then
      { s with queue := s.queue.erase j, phase := Function.update s.phase j "CANCELLED" }
    else
      match s.cur with
      | some w => if w.job = j then { s with cancelEvent := true } else s
      | none => s
  | .workerBegin =>
    match s.cur with
    | some ⟨j, false⟩ =>
      { s with phase := Function.update s.phase j "RUNNING", cur := some ⟨j, true⟩ }
    | _ => s
  | .workerFinish o =>
    match s.cur with
    | some w =>
      let ph := Function.update s.phase w.job o.phaseOf
      match s.queue with
      | [] => { queue := [], cur := none, phase := ph, cancelEvent := s.cancelEvent }
      | h :: t => { queue := t, cur := some ⟨h, false⟩, phase := ph, cancelEvent := false }
    | none => s

/-- Run a sequence of queue actions. -/
def runQ (s : QState) (acts : List QAction) : QState :=
  acts.foldl stepQ s

/-- No job in the store is persisted as RUNNING. -/
def noRunning (f : String → String) : Prop := ∀ j, f j ≠ "RUNNING"

/-- At most one job in the store has phase RUNNING. -/
def atMostOneRunning (s : QState) : Prop :=
  ∀ a b, s.phase a = "RUNNING" → s.phase b = "RUNNING" → a = b

/-- Inductive invariant: a RUNNING job is exactly the current worker's job,
and that worker has already executed its RUNNING save. -/
def QInv (s : QState) : Prop :=
  ∀ j, s.phase j = "RUNNING" → ∃ w, s.cur = some w ∧ w.job = j ∧ w.started = true

/-- Modelled from the spec: `JobQueue.mark_completed` (spec section 4.4) is
absent from src/orchestrator_host/jobs.py — only its caller (main.py line
134) and its tests reference it. Per the spec it clears current iff it
matches the given job id, then promotes the next queued job; the promoted
job's start worker sets its phase to RUNNING, folded in here as the
promotion's immediate effect. -/
def markCompleted (s : QState) (j : String) : QState :=
  match s.cur with
  | some w =>
    if w.job = j then
      match s.queue with
      | [] => { queue := [], cur := none, phase := s.phase, cancelEvent := s.cancelEvent }
      | h :: t =>
        { queue := t, cur := some ⟨h, true⟩,
          phase := Function.update s.phase h "RUNNING", cancelEvent := false }
    else s
  | none => s

/-- The event types `handle_callback_event` (main.py line 133) treats as
terminal. -/
def terminalEventTypes : List String := ["completed", "failed", "session_ended"]

/-- The queue effect of `handle_callback_event` (main.py lines 132-134): on a
terminal event call `mark_completed` with the event's job id, else leave the
queue alone. -/
def handleTerminalEvent (s : QState) (event_type job_id : String) : QState :=
  if event_type ∈ terminalEventTypes then markCompleted s job_id else s

/-! ## orchestrator_host/approvals.py -/

/-- An entry of `ApprovalManager._pending` (approvals.py line 34). -/
structure PendingApproval where
  tool_use_id : String
  tool_name : String
  channel_id : String
  thread_ts : String
deriving DecidableEq, Repr

/-- The `_pending` dict, job id to entry (unique keys). -/
abbrev ApprovalTable := List (String × PendingApproval)

/-- Embeds `dict.get`: first entry for the key, if any. -/
def tableGet (m : ApprovalTable) (k : String) : Option PendingApproval :=
  (m.find? fun e => e.1 == k).map (·.2)

/-- Embeds `dict.pop(k, None)`: the removed entry (if any) and the remaining table. -/
def tablePop (m : ApprovalTable) (k : String) : Option PendingApproval × ApprovalTable :=
  (tableGet m k, m.filter fun e => !(e.1 == k))

/-- Embeds `register_pending` (approvals.py lines 25-39): install, overwriting any
prior entry for the job. -/
def registerPending (m : ApprovalTable) (job tu tn ch th : String) : ApprovalTable :=
  (job, ⟨tu, tn, ch, th⟩) :: m.filter fun e => !(e.1 == job)

/-- The runner RPC issued by the approval manager
(docker_exec.py `send_approval`). -/
inductive RunnerRpc
  | sendApproval (job tu : String) (approved auto : Bool)
deriving DecidableEq, Repr

/-- Embeds `handle_approve` (approvals.py lines 45-55): `self._pending.pop(job_id,
None)` removes the entry before the `tool_use_id` check; on a match it sends
the approval RPC and returns true, otherwise returns false (Slack UI update
elided). Result: (new table, return value, RPCs issued). -/
def handleApprove (m : ApprovalTable) (job tu : String) (autoAll : Bool) :
    ApprovalTable × Bool × List RunnerRpc :=
  let popped := tablePop m job
  match popped.1 with
  | none => (popped.2, false, [])
  | some p =>
    if p.tool_use_id ≠ tu then (popped.2, false, [])
    else (popped.2, true, [.sendApproval job tu true autoAll])

/-- Embeds `handle_deny` (approvals.py lines 57-65): symmetric to `handle_approve`,
sends `approved=False`. -/
def handleDeny (m : ApprovalTable) (job tu : String) :
    ApprovalTable × Bool × List RunnerRpc :=
  let popped := tablePop m job
  match popped.1 with
  | none => (popped.2, false, [])
  | some p =>
    if p.tool_use_id ≠ tu then (popped.2, false, [])
    else (popped.2, true, [.sendApproval job tu false false])

/-! ## src/poc/event_bridge.py -/

/-- A Python `tool_input` dict restricted to the string-valued fields that
`_summarize_input` projects. -/
abbrev ToolInput := List (String × String)

/-- Embeds `dict.get(k, "")` on a tool input. -/
def dget (d : ToolInput) (k : String) : String :=
  ((d.find? fun e => e.1 == k).map (·.2)).getD ""

/-- Embeds `json.dumps` of a string-valued dict (default separators; escaping of
special characters elided — the claims only read lengths of this branch,
which is truncated regardless). -/
def pyDumps (d : ToolInput) : String :=
  "\x7b" ++ String.intercalate ", "
    (d.map fun e => "\"" ++ e.1 ++ "\": \"" ++ e.2 ++ "\"") ++ "\x7d"

/-- Embeds `_summarize_input` (event_bridge.py lines 151-166). -/
def summarizeInput (tool_name : String) (tool_input : ToolInput) : String :=
  if tool_name = "Bash" then
    let cmd := dget tool_input "command"
    if cmd.length ≤ 200 then pyslice cmd 200 else pyslice cmd 197 ++ "..."
  else if tool_name = "Read" ∨ tool_name = "Write" ∨ tool_name = "Edit" then
    dget tool_input "file_path"
  else if tool_name = "Glob" then dget tool_input "pattern"
  else if tool_name = "Grep" then dget tool_input "pattern"
  else if tool_name = "WebSearch" then dget tool_input "query"
  else if tool_name = "WebFetch" then dget tool_input "url"
  else pyslice (pyDumps tool_input) 200

/-- A JSON scalar as used in event payloads and HTTP bodies. -/
inductive JVal
  | s (v : String)
  | n (v : Nat)
  | b (v : Bool)
deriving DecidableEq, Repr

/-- A callback event body (the `{event_type, data}` part of the envelope;
`job_id` and `timestamp` are added by the callback client). -/
structure Event where
  event_type : String
  data : List (String × JVal)
deriving DecidableEq, Repr

/-- Embeds `map_approval_needed` (event_bridge.py lines 124-136); the
`{"tool_name","tool_input"}` input dict is passed as two arguments. -/
def mapApprovalNeeded (tool_name : String) (tool_input : ToolInput)
    (tool_use_id : Option String) : Event :=
  ⟨"approval_needed",
   [("tool_use_id", .s (tool_use_id.getD "")),
    ("tool_name", .s tool_name),
    ("tool_input", .s (summarizeInput tool_name tool_input))]⟩

/-- Embeds `map_approval_timeout` (event_bridge.py lines 139-148). -/
def mapApprovalTimeout (tool_name : String) (tool_use_id : Option String)
    (timeout : Nat) : Event :=
  ⟨"approval_timeout",
   [("tool_use_id", .s (tool_use_id.getD "")),
    ("tool_name", .s tool_name),
    ("timeout", .n timeout)]⟩

/-! ## src/poc/agent.py — AgentSession -/

/-- Embeds `APPROVAL_REQUIRED_TOOLS` (agent.py line 32). -/
def APPROVAL_REQUIRED_TOOLS : List String := ["Bash", "Write", "Edit"]

/-- The `pending_approval` dict installed by `_can_use_tool`
(agent.py lines 281-285). -/
structure SessionPending where
  tool_use_id : String
  tool_name : String
  tool_input : ToolInput
deriving DecidableEq, Repr

/-- Embeds `AgentSession` (agent.py lines 58-92); asyncio internals (`_loop`, the
two `asyncio.Event`s, the thread handle) are synchronization plumbing and
are elided — their observable effect is which resume branch runs, modelled
by which function below is applied. -/
structure Session where
  job_id : String
  goal : String
  model : String := ""
  callback_url : String := ""
  max_turns : Nat := 200
  approval_timeout : Nat := 600
  approved_tools : List String := []
  pending_approval : Option SessionPending := none
  iteration : Nat := 0
  status : String := "pending"
  result_text : String := ""
  approval_granted : Bool := false
  cancel_requested : Bool := false
  end_requested : Bool := false
  queued_messages : List String := []
deriving DecidableEq, Repr

/-- Embeds `AgentSession.approve` (agent.py lines 104-114): returns false unless the
pending approval matches `tool_use_id`; on a match it optionally records the
tool as auto-approved, sets `_approval_granted` and signals the rendezvous
(signal elided). It never touches `pending_approval`. -/
def Session.approve (s : Session) (tu : String) (auto : Bool) : Session × Bool :=
  match s.pending_approval with
  | none => (s, false)
  | some p =>
    if p.tool_use_id ≠ tu then (s, false)
    else
      let tools :=
        if auto then
          if p.tool_name ∈ s.approved_tools then s.approved_tools
          else p.tool_name :: s.approved_tools
        else s.approved_tools
      ({ s with approved_tools := tools, approval_granted := true }, true)

/-- Embeds `AgentSession.deny` (agent.py lines 116-123): symmetric to `approve`
with `_approval_granted = False`; also never touches `pending_approval`. -/
def Session.deny (s : Session) (tu : String) : Session × Bool :=
  match s.pending_approval with
  | none => (s, false)
  | some p =>
    if p.tool_use_id ≠ tu then (s, false)
    else ({ s with approval_granted := false }, true)

/-- Embeds `AgentSession.add_message` (agent.py lines 125-129). -/
def Session.addMessage (s : Session) (m : String) : Session :=
  { s with queued_messages := s.queued_messages ++ [m] }

/-- Embeds `AgentSession.cancel` (agent.py lines 139-147): set the flag; if an
approval is pending, also revoke the grant (the rendezvous signals are
elided). -/
def Session.cancelReq (s : Session) : Session :=
  if s.pending_approval.isSome then
    { s with cancel_requested := true, approval_granted := false }
  else { s with cancel_requested := true }

/-- A concrete session parked on a Bash approval (as installed by
`_can_use_tool`), used as a test vector. -/
def parkedSession : Session :=
  { job_id := "j", goal := "g", pending_approval := some ⟨"tu-1", "Bash", []⟩,
    status := "waiting_approval" }

/-- The permission callback's return value
(`PermissionResultAllow`/`PermissionResultDeny`). -/
inductive PermResult
  | allow
  | deny (message : String)
deriving DecidableEq, Repr

/-- Result of the pre-wait part of `_can_use_tool`. -/
inductive ParkResult
  | allow
  | parked (s : Session) (ev : Event) (tool_use_id : String)
deriving DecidableEq, Repr

/-- Embeds `_can_use_tool` before the wait (agent.py lines 266-294): immediate Allow
for non-dangerous or already-approved tools; otherwise synthesize the
`tool_use_id`, install `pending_approval`, enter `waiting_approval`, reset
the grant, and emit `approval_needed`. -/
def canUseToolStart (s : Session) (tool_name : String) (tool_input : ToolInput) :
    ParkResult :=
  if tool_name ∉ APPROVAL_REQUIRED_TOOLS then .allow
  else if tool_name ∈ s.approved_tools then .allow
  else
    let tu := "sdk-" ++ s.job_id ++ "-" ++ toString s.iteration ++ "-" ++ tool_name
    let s₁ := { s with
        pending_approval := some ⟨tu, tool_name, tool_input⟩,
        status := "waiting_approval",
        approval_granted := false }
    .parked s₁ (mapApprovalNeeded tool_name tool_input (some tu)) tu

/-- Embeds `_can_use_tool`, timeout path (agent.py lines 301-313): emit
`approval_timeout`, clear `pending_approval`, restore status running, and
return the auto-denial. -/
def canUseToolTimeout (s : Session) (tool_name tu : String) :
    Session × Event × PermResult :=
  ({ s with pending_approval := none, status := "running" },
   mapApprovalTimeout tool_name (some tu) s.approval_timeout,
   .deny ("Tool call '" ++ tool_name ++ "' was denied automatically — " ++
     ("approval timed out after " ++ toString s.approval_timeout ++ " seconds") ++ "."))

/-- Embeds `_can_use_tool` after the rendezvous is signalled (agent.py lines
315-326), applied to the session as mutated by `approve`/`deny`/`cancel`
during the wait. -/
def canUseToolResume (s : Session) (tool_name : String) : Session × PermResult :=
  let s₁ := { s with pending_approval := none, status := "running" }
  if s.cancel_requested then (s₁, .deny "Agent cancelled by user.")
  else if !s.approval_granted then
    (s₁, .deny ("Tool call '" ++ tool_name ++ "' was denied by the user."))
  else (s₁, .allow)

/-! ## src/poc/handler.py — runner HTTP routing -/

/-- An HTTP response as produced by `RunnerHandler._respond`. -/
structure HttpResponse where
  code : Nat
  body : List (String × JVal)
deriving DecidableEq, Repr

/-- Split a character list on `'/'`, keeping empty segments (the segment
view of a URL path). -/
def splitSlash (l : List Char) : List (List Char) :=
  match l with
  | [] => [[]]
  | c :: rest =>
    let r := splitSlash rest
    if c = '/' then [] :: r
    else
      match r with
      | [] => [[c]]
      | h :: t => (c :: h) :: t

/-- The route patterns `^/jobs/([^/]+)/<action>$` (handler.py lines 28-32):
a match needs exactly the four slash-separated segments, with a non-empty
job id (`[^/]+`). -/
def matchJobRoute (path action : String) : Option String :=
  match (splitSlash path.data).map String.mk with
  | ["", "jobs", jid, act] => if act = action ∧ jid ≠ "" then some jid else none
  | _ => none

/-- The `RunnerHandler.sessions` registry (handler.py line 39). -/
abbrev SessionMap := List (String × Session)

/-- Embeds `sessions.get(job_id)`. -/
def mapGet (m : SessionMap) (k : String) : Option Session :=
  (m.find? fun e => e.1 == k).map (·.2)

/-- Embeds `sessions[job_id] = session` (overwrite). -/
def mapSet (m : SessionMap) (k : String) (v : Session) : SessionMap :=
  (k, v) :: m.filter fun e => !(e.1 == k)

/-- Embeds `body.get(k, default)` for string fields. -/
def bgetStr (b : List (String × JVal)) (k default : String) : String :=
  match (b.find? fun e => e.1 == k).map (·.2) with
  | some (JVal.s v) => v
  | _ => default

/-- Embeds `body.get(k, default)` for integer fields. -/
def bgetNat (b : List (String × JVal)) (k : String) (default : Nat) : Nat :=
  match (b.find? fun e => e.1 == k).map (·.2) with
  | some (JVal.n v) => v
  | _ => default

/-- Embeds `body.get(k, default)` for boolean fields. -/
def bgetBool (b : List (String × JVal)) (k : String) (default : Bool) : Bool :=
  match (b.find? fun e => e.1 == k).map (·.2) with
  | some (JVal.b v) => v
  | _ => default

/-- Embeds `_handle_start` (handler.py lines 91-119): 409 when the existing session
is running or waiting_approval, 400 on a missing goal, else construct the
session, `start()` it (status becomes running; the thread spawn is elided)
and respond 200. -/
def handleStartHttp (sessions : SessionMap) (jid : String)
    (body : List (String × JVal)) : HttpResponse × SessionMap :=
  let alreadyRunning :=
    match mapGet sessions jid with
    | some sess => sess.status == "running" || sess.status == "waiting_approval"
    | none => false
  if alreadyRunning then
    (⟨409, [("error", .s ("Job " ++ jid ++ " is already running"))]⟩, sessions)
  else
    let goal := bgetStr body "goal" ""
    if goal = "" then
      (⟨400, [("error", .s "Missing 'goal' in request body")]⟩, sessions)
    else
      let sess : Session :=
        { job_id := jid, goal := goal,
          callback_url := bgetStr body "callback_url" "",
          model := bgetStr body "model" "",
          max_turns := bgetNat body "max_turns" 200,
          approval_timeout := bgetNat body "approval_timeout" 600,
          status := "running" }
      (⟨200, [("job_id", .s jid), ("status", .s "started"),
              ("model", .s (if sess.model = "" then "claude-sonnet-4-5-20250929"
                            else sess.model))]⟩,
       mapSet sessions jid sess)

/-- Embeds `_handle_approve` (handler.py lines 121-139). -/
def handleApproveHttp (sessions : SessionMap) (jid : String)
    (body : List (String × JVal)) : HttpResponse × SessionMap :=
  match mapGet sessions jid with
  | none => (⟨404, [("error", .s ("Job " ++ jid ++ " not found"))]⟩, sessions)
  | some sess =>
    let tu := bgetStr body "tool_use_id" ""
    let approved := bgetBool body "approved" true
    let auto := bgetBool body "auto_approve_tool" false
    let res := if approved then sess.approve tu auto else sess.deny tu
    if res.2 then
      (⟨200, [("status", .s "ok"), ("approved", .b approved)]⟩,
       mapSet sessions jid res.1)
    else
      (⟨400, [("error", .s "No matching pending approval")]⟩,
       mapSet sessions jid res.1)

/-- Embeds `_handle_message` (handler.py lines 141-153). -/
def handleMessageHttp (sessions : SessionMap) (jid : String)
    (body : List (String × JVal)) : HttpResponse × SessionMap :=
  match mapGet sessions jid with
  | none => (⟨404, [("error", .s ("Job " ++ jid ++ " not found"))]⟩, sessions)
  | some sess =>
    let message := bgetStr body "message" ""
    if message = "" then
      (⟨400, [("error", .s "Missing 'message' in request body")]⟩, sessions)
    else
      (⟨200, [("status", .s "message_added")]⟩,
       mapSet sessions jid (sess.addMessage message))

/-- Embeds `_handle_cancel` (handler.py lines 155-162). -/
def handleCancelHttp (sessions : SessionMap) (jid : String) :
    HttpResponse × SessionMap :=
  match mapGet sessions jid with
  | none => (⟨404, [("error", .s ("Job " ++ jid ++ " not found"))]⟩, sessions)
  | some sess =>
    (⟨200, [("status", .s "cancel_requested")]⟩,
     mapSet sessions jid sess.cancelReq)

/-- Embeds `RunnerHandler.do_POST` (handler.py lines 57-85): try the start, approve,
message and cancel routes in order; anything else — there is no `end` route
— falls through to 404. -/
def doPost (path : String) (body : List (String × JVal)) (sessions : SessionMap) :
    HttpResponse × SessionMap :=
  match matchJobRoute path "start" with
  | some jid => handleStartHttp sessions jid body
  | none =>
    match matchJobRoute path "approve" with
    | some jid => handleApproveHttp sessions jid body
    | none =>
      match matchJobRoute path "message" with
      | some jid => handleMessageHttp sessions jid body
      | none =>
        match matchJobRoute path "cancel" with
        | some jid => handleCancelHttp sessions jid
        | none => (⟨404, [("error", .s "Not found")]⟩, sessions)

/-! ## orchestrator_host/jobs.py — the pipeline worker `_run_pipeline` -/

/-- The result object of `run_in_runner` (as consumed at jobs.py lines
142-157; the function itself is imported at jobs.py line 10 but is not
defined anywhere under src/). -/
structure ExecResult where
  exit_code : Int
  was_cancelled : Bool

/-- The outbound runner calls the controller can make: the docker-exec step
execution used by `_run_pipeline`, and the agent start RPC
(`start_agent_job`, docker_exec.py lines 14-33) which the claims say the
start worker issues. -/
inductive HostRpc
  | runInRunner (job step command : String)
  | startAgent (job : String)
deriving DecidableEq, Repr

/-- The `PipelineCallback` invocations `_run_pipeline` can fire (the protocol
at jobs.py lines 23-31 — note there is no `on_job_started`). -/
inductive CbEvent
  | stepStart (step : String)
  | stepDone (step : String)
  | jobDone
  | jobFailed (step : String)
  | jobCancelled
deriving DecidableEq, Repr

/-- Observable outcome of one `_run_pipeline` execution: final persisted
phase, diagnostic error, outbound RPCs, and callback invocations. -/
structure PipeOut where
  finalPhase : String
  error : Option String
  calls : List HostRpc
  events : List CbEvent
deriving DecidableEq, Repr

/-- The step loop of `_run_pipeline` (jobs.py lines 119-172). `exec` is the
`run_in_runner` oracle; `cancelBefore`/`cancelAfter` give the value of
`self._cancel_event.is_set()` at the two checks around each step. The
initial RUNNING save (line 116) is the queue model's `workerBegin`. -/
def runSteps (job : String) (steps : List StepState) (exec : StepState → ExecResult)
    (cancelBefore cancelAfter : StepState → Bool) : PipeOut :=
  match steps with
  | [] => ⟨"DONE", none, [], [.jobDone]⟩
  | st :: rest =>
    if cancelBefore st then ⟨"CANCELLED", none, [], [.jobCancelled]⟩
    else if st.status = "done" ∨ st.status = "skipped" then
      runSteps job rest exec cancelBefore cancelAfter
    else
      let r := exec st
      let call := HostRpc.runInRunner job st.id st.command
      if cancelAfter st ∨ r.was_cancelled then
        ⟨"CANCELLED", none, [call], [.stepStart st.id, .jobCancelled]⟩
      else if r.exit_code ≠ 0 then
        ⟨"FAILED",
         some ("Step '" ++ st.id ++ "' failed with exit code " ++ toString r.exit_code),
         [call], [.stepStart st.id, .stepDone st.id, .jobFailed st.id]⟩
      else
        let out := runSteps job rest exec cancelBefore cancelAfter
        ⟨out.finalPhase, out.error, call :: out.calls,
         [.stepStart st.id, .stepDone st.id] ++ out.events⟩

/-- Embeds `_run_pipeline` for a loaded job state (jobs.py lines 112-188): run the
step loop over the job's steps. -/
def runPipelineWorker (state : JobState) (exec : StepState → ExecResult)
    (cancelBefore cancelAfter : StepState → Bool) : PipeOut :=
  runSteps state.job_id state.steps exec cancelBefore cancelAfter

/-- Whether a host RPC is the docker-exec step execution. -/
def HostRpc.isRunInRunner : HostRpc → Bool
  | runInRunner _ _ _ => true
  | _ => false

/-- Embeds `DEFAULT_STEPS` (state.py lines 169-174). -/
def DEFAULT_STEPS : List StepState :=
  [⟨"bootstrap", "scripts/bootstrap.sh", "pending", none⟩,
   ⟨"doctor", "scripts/doctor.sh", "pending", none⟩,
   ⟨"lint", "scripts/lint.sh", "pending", none⟩,
   ⟨"test", "scripts/test.sh", "pending", none⟩]

/-! ## Theorems -/

/-- Stepping the queue preserves the running-job invariant. -/
lemma qinv_step (s : QState) (a : QAction) (h : QInv s) : QInv (stepQ s a) := by
  obtain ⟨qu, cur, ph, ce⟩ := s
  cases a with
  | enqueue j =>
    cases cur with
    | some w =>
      intro k hk
      exact h k hk
    | none =>
      cases hq : qu ++ [j] with
      | nil => simp at hq
      | cons hd tl =>
        intro k hk
        simp only [stepQ, hq] at hk ⊢
        obtain ⟨w, hw, -⟩ := h k hk
        simp at hw
  | cancel j =>
    by_cases hj : j ∈ qu
    · intro k hk
      simp only [stepQ, if_pos hj] at hk ⊢
      rcases eq_or_ne k j with rfl | hne
      · simp [Function.update_same] at hk
      · rw [Function.update_noteq hne] at hk
        exact h k hk
    · cases cur with
      | none =>
        intro k hk
        simp only [stepQ, if_neg hj] at hk ⊢
        exact h k hk
      | some w =>
        by_cases hw : w.job = j
        · intro k hk
          simp only [stepQ, if_neg hj, if_pos hw] at hk ⊢
          exact h k hk
        · intro k hk
          simp only [stepQ, if_neg hj, if_neg hw] at hk ⊢
          exact h k hk
  | workerBegin =>
    cases cur with
    | none => intro k hk; exact h k hk
    | some w =>
      obtain ⟨wj, ws⟩ := w
      cases ws with
      | true => intro k hk; exact h k hk
      | false =>
        intro k hk
        simp only [stepQ] at hk ⊢
        rcases eq_or_ne k wj with rfl | hne
        · exact ⟨⟨k, true⟩, rfl, rfl, rfl⟩
        · rw [Function.update_noteq hne] at hk
          obtain ⟨w', hw', hwj, hws⟩ := h k hk
          rw [Option.some_inj] at hw'
          subst hw'
          simp at hws
  | workerFinish o =>
    cases cur with
    | none => intro k hk; exact h k hk
    | some w =>
      have hterm : Outcome.phaseOf o ≠ "RUNNING" := by
        cases o <;> simp [Outcome.phaseOf]
      cases hq : qu with
      | nil =>
        intro k hk
        simp only [stepQ, hq] at hk ⊢
        rcases eq_or_ne k w.job with rfl | hne
        · rw [Function.update_same] at hk
          exact absurd hk hterm
        · rw [Function.update_noteq hne] at hk
          obtain ⟨w', hw', hwj, -⟩ := h k hk
          rw [Option.some_inj] at hw'
          subst hw'
          exact absurd hwj.symm hne
      | cons hd tl =>
        intro k hk
        simp only [stepQ, hq] at hk ⊢
        rcases eq_or_ne k w.job with rfl | hne
        · rw [Function.update_same] at hk
          exact absurd hk hterm
        · rw [Function.update_noteq hne] at hk
          obtain ⟨w', hw', hwj, -⟩ := h k hk
          rw [Option.some_inj] at hw'
          subst hw'
          exact absurd hwj.symm hne

/-- Running any action sequence preserves the running-job invariant. -/
lemma qinv_run (s : QState) (acts : List QAction) (h : QInv s) : QInv (runQ s acts) := by
  induction acts generalizing s with
  | nil => exact h
  | cons a rest ih => exact ih (stepQ s a) (qinv_step s a h)

/-- The running-job invariant implies mutual exclusion of RUNNING phases. -/
lemma qinv_atMostOne (s : QState) (h : QInv s) : atMostOneRunning s := by
  intro a b ha hb
  obtain ⟨w₁, hc₁, hj₁, -⟩ := h a ha
  obtain ⟨w₂, hc₂, hj₂, -⟩ := h b hb
  rw [hc₁, Option.some_inj] at hc₂
  rw [← hj₁, hc₂, hj₂]

/-- Claim C4: over every sequence of enqueue, cancel and job-completion
actions of the source `JobQueue` (jobs.py lines 56-188), started from an
idle queue over a store with no RUNNING job, at most one job in the store
has phase RUNNING at any instant; and whenever the current worker is
replaced by a worker for a different job, the replacement happens in the
worker-finish action and the outgoing job's persisted phase at that instant
is terminal (DONE, FAILED or CANCELLED) — i.e. the next queued job is
started only after the current job reaches a terminal outcome (cancellation
of the current job is acknowledged by the worker finishing with the
CANCELLED outcome). -/
theorem spec_c4 :
    (∀ (phase0 : String → String) (acts : List QAction), noRunning phase0 →
      atMostOneRunning (runQ ⟨[], none, phase0, false⟩ acts)) ∧
    (∀ (s : QState) (a : QAction) (w w' : Worker),
      s.cur = some w → (stepQ s a).cur = some w' → w'.job ≠ w.job →
      (∃ o : Outcome, a = QAction.workerFinish o) ∧
        ((stepQ s a).phase w.job = "DONE" ∨ (stepQ s a).phase w.job = "FAILED" ∨
         (stepQ s a).phase w.job = "CANCELLED")) := by
  constructor
  · intro phase0 acts h0
    apply qinv_atMostOne
    apply qinv_run
    intro k hk
    exact absurd hk (h0 k)
  · intro s a w w' hc hc' hne
    obtain ⟨qu, cur, ph, ce⟩ := s
    simp only at hc
    subst hc
    cases a with
    | enqueue j =>
      simp only [stepQ] at hc'
      rw [Option.some_inj] at hc'
      exact absurd (congrArg Worker.job hc'.symm) hne
    | cancel j =>
      by_cases hj : j ∈ qu
      · simp only [stepQ, if_pos hj] at hc'
        rw [Option.some_inj] at hc'
        exact absurd (congrArg Worker.job hc'.symm) hne
      · by_cases hw : w.job = j
        · simp only [stepQ, if_neg hj, if_pos hw] at hc'
          rw [Option.some_inj] at hc'
          exact absurd (congrArg Worker.job hc'.symm) hne
        · simp only [stepQ, if_neg hj, if_neg hw] at hc'
          rw [Option.some_inj] at hc'
          exact absurd (congrArg Worker.job hc'.symm) hne
    | workerBegin =>
      obtain ⟨wj, ws⟩ := w
      cases ws with
      | true =>
        simp only [stepQ] at hc'
        rw [Option.some_inj] at hc'
        exact absurd (congrArg Worker.job hc'.symm) hne
      | false =>
        simp only [stepQ] at hc'
        rw [Option.some_inj] at hc'
        subst hc'
        simp at hne
    | workerFinish o =>
      refine ⟨⟨o, rfl⟩, ?_⟩
      cases hq : qu with
      | nil => simp [stepQ, hq] at hc'
      | cons hd tl =>
        simp only [stepQ, hq, Function.update_same]
        cases o <;> simp [Outcome.phaseOf]

/-- Witness for C4 at concrete inputs: a two-job trace from the empty store,
and a concrete worker-finish handoff. -/
theorem spec_c4_witness :
    noRunning (fun _ => "QUEUED") ∧
    atMostOneRunning (runQ ⟨[], none, fun _ => "QUEUED", false⟩
      [QAction.enqueue "job-a", QAction.enqueue "job-b", QAction.workerBegin,
       QAction.workerFinish Outcome.jobDone, QAction.workerBegin]) ∧
    ((stepQ ⟨["job-b"], some ⟨"job-a", true⟩, fun _ => "QUEUED", false⟩
        (QAction.workerFinish Outcome.jobDone)).phase "job-a" = "DONE" ∨
     (stepQ ⟨["job-b"], some ⟨"job-a", true⟩, fun _ => "QUEUED", false⟩
        (QAction.workerFinish Outcome.jobDone)).phase "job-a" = "FAILED" ∨
     (stepQ ⟨["job-b"], some ⟨"job-a", true⟩, fun _ => "QUEUED", false⟩
        (QAction.workerFinish Outcome.jobDone)).phase "job-a" = "CANCELLED") :=
  ⟨fun j => by simp,
   spec_c4.1 (fun _ => "QUEUED") _ (fun j => by simp),
   (spec_c4.2 ⟨["job-b"], some ⟨"job-a", true⟩, fun _ => "QUEUED", false⟩
      (QAction.workerFinish Outcome.jobDone) ⟨"job-a", true⟩ ⟨"job-b", false⟩
      rfl rfl (by simp)).2⟩

/-- Every outbound call the pipeline step loop makes is a docker-exec
`run_in_runner` call. -/
lemma runSteps_calls_runInRunner (steps : List StepState) (job : String)
    (exec : StepState → ExecResult) (cb ca : StepState → Bool) :
    ((runSteps job steps exec cb ca).calls.all HostRpc.isRunInRunner) = true := by
  induction steps with
  | nil => rfl
  | cons st rest ih =>
    simp only [runSteps]
    split
    · rfl
    · split
      · exact ih
      · split
        · rfl
        · split
          · rfl
          · simpa [HostRpc.isRunInRunner] using ih

/-- Claim C1 (code evaluation): the promoted job's worker `_run_pipeline`
(jobs.py lines 112-188) only ever issues docker-exec `run_in_runner` calls —
it never POSTs `start` to the runner (`start_agent_job` is never invoked),
for every job state and every oracle; and at the concrete failing input (a
freshly enqueued job with the default pipeline and a successful runner) it
executes the four pipeline steps and finishes DONE via
`on_step_start`/`on_step_done`/`on_job_done` — the `PipelineCallback`
protocol has no `on_job_started` at all. -/
theorem spec_c1 :
    (∀ (state : JobState) (exec : StepState → ExecResult) (cb ca : StepState → Bool),
      ((runPipelineWorker state exec cb ca).calls.all HostRpc.isRunInRunner) = true) ∧
    runPipelineWorker
      { job_id := "20260206-120000-aaaa", goal := "test agent", steps := DEFAULT_STEPS }
      (fun _ => ⟨0, false⟩) (fun _ => false) (fun _ => false) =
      ⟨"DONE", none,
       [HostRpc.runInRunner "20260206-120000-aaaa" "bootstrap" "scripts/bootstrap.sh",
        HostRpc.runInRunner "20260206-120000-aaaa" "doctor" "scripts/doctor.sh",
        HostRpc.runInRunner "20260206-120000-aaaa" "lint" "scripts/lint.sh",
        HostRpc.runInRunner "20260206-120000-aaaa" "test" "scripts/test.sh"],
       [CbEvent.stepStart "bootstrap", CbEvent.stepDone "bootstrap",
        CbEvent.stepStart "doctor", CbEvent.stepDone "doctor",
        CbEvent.stepStart "lint", CbEvent.stepDone "lint",
        CbEvent.stepStart "test", CbEvent.stepDone "test", CbEvent.jobDone]⟩ := by
  refine ⟨fun state exec cb ca => runSteps_calls_runInRunner state.steps state.job_id exec cb ca, ?_⟩
  rfl

/-- Claim C2 (code evaluation): `recover_stale_jobs` (jobs.py lines 191-208)
rewrites a RUNNING job to FAILED with the restart diagnostic, but leaves a
job persisted as WAITING_APPROVAL (or WAITING_INPUT) completely unchanged —
contrary to the claim, which requires all three to be rewritten. -/
theorem spec_c2 :
    (recoverJob { job_id := "stale-2", goal := "stale", phase := "WAITING_APPROVAL" } =
      { job_id := "stale-2", goal := "stale", phase := "WAITING_APPROVAL" }) ∧
    ((recoverJob { job_id := "stale-3", goal := "stale", phase := "WAITING_INPUT" }).phase =
      "WAITING_INPUT") ∧
    (recoverStaleJobs
      [{ job_id := "stale-1", goal := "stale", phase := "RUNNING" },
       { job_id := "stale-2", goal := "stale", phase := "WAITING_APPROVAL" }] =
      [{ job_id := "stale-1", goal := "stale", phase := "FAILED",
         error := some "Orchestrator restarted while job was running" },
       { job_id := "stale-2", goal := "stale", phase := "WAITING_APPROVAL" }]) ∧
    (recoveredIds
      [{ job_id := "stale-1", goal := "stale", phase := "RUNNING" },
       { job_id := "stale-2", goal := "stale", phase := "WAITING_APPROVAL" },
       { job_id := "stale-3", goal := "stale", phase := "WAITING_INPUT" }] =
      ["stale-1"]) := by
  refine ⟨rfl, rfl, ?_, rfl⟩
  decide

/-- Claim C3 (code evaluation): `set_phase` (state.py lines 90-94) accepts a
phase exactly when it is in the source's six-element `VALID_PHASES`; it
rejects (raises `ValueError` on) both `WAITING_INPUT` and
`WAITING_APPROVAL`, so the controller's `waiting_input` event handler
(main.py lines 124-130) can never persist phase WAITING_INPUT — contrary to
the claim's eight-phase enum. -/
theorem spec_c3 :
    (∀ (s : JobState) (p : String),
      (setPhase s p).isSome = decide (p ∈ VALID_PHASES)) ∧
    (∀ s : JobState, setPhase s "WAITING_INPUT" = none) ∧
    (∀ s : JobState, setPhase s "WAITING_APPROVAL" = none) ∧
    (∀ s : JobState, setPhase s "RUNNING" = some { s with phase := "RUNNING" }) ∧
    (VALID_PHASES.contains "WAITING_INPUT" = false ∧
     VALID_PHASES.contains "WAITING_APPROVAL" = false ∧
     VALID_PHASES = ["QUEUED", "RUNNING", "BLOCKED", "DONE", "FAILED", "CANCELLED"]) := by
  refine ⟨?_, ?_, ?_, ?_, by decide, by decide, rfl⟩
  · intro s p
    by_cases h : p ∈ VALID_PHASES
    · simp [setPhase, h]
    · simp [setPhase, h]
  · intro s
    simp [setPhase, VALID_PHASES]
  · intro s
    simp [setPhase, VALID_PHASES]
  · intro s
    simp [setPhase, VALID_PHASES]

/-- Claim C5: for a terminal event (`completed`, `failed`, `session_ended`)
the controller's event handler invokes `mark_completed`, which clears
`current_job_id` iff it matches the event's job and then promotes the next
queued job, whose phase becomes RUNNING whenever the queue is non-empty
(spec-modelled: `mark_completed` is absent from src/orchestrator_host/jobs.py). -/
theorem spec_c5 :
    ∀ (s : QState) (et j : String), et ∈ terminalEventTypes →
      ((∀ w : Worker, s.cur = some w → w.job = j →
        ((s.queue = [] → (handleTerminalEvent s et j).cur = none) ∧
         (∀ h t, s.queue = h :: t →
           (handleTerminalEvent s et j).cur = some ⟨h, true⟩ ∧
           (handleTerminalEvent s et j).phase h = "RUNNING" ∧
           (handleTerminalEvent s et j).queue = t))) ∧
       (s.cur.map Worker.job ≠ some j → handleTerminalEvent s et j = s)) := by
  intro s et j het
  have hev : handleTerminalEvent s et j = markCompleted s j := by
    simp [handleTerminalEvent, het]
  obtain ⟨qu, cur, ph, ce⟩ := s
  constructor
  · intro w hw hj
    simp only at hw
    subst hw
    constructor
    · intro hq
      subst hq
      simp [hev, markCompleted, hj]
    · intro h t hq
      subst hq
      simp [hev, markCompleted, hj, Function.update_same]
  · intro hne
    rw [hev]
    cases cur with
    | none => rfl
    | some w =>
      have hwj : w.job ≠ j := by
        intro hcontra
        exact hne (by simp [hcontra])
      simp [markCompleted, hwj]

/-- Witness for C5 at a concrete input: a `completed` event for the current
job with one queued successor. -/
theorem spec_c5_witness :
    ("completed" ∈ terminalEventTypes) ∧
    (handleTerminalEvent ⟨["j2"], some ⟨"j1", true⟩, fun _ => "QUEUED", false⟩
        "completed" "j1").cur = some ⟨"j2", true⟩ ∧
    (handleTerminalEvent ⟨["j2"], some ⟨"j1", true⟩, fun _ => "QUEUED", false⟩
        "completed" "j1").phase "j2" = "RUNNING" ∧
    (handleTerminalEvent ⟨["j2"], some ⟨"j1", true⟩, fun _ => "QUEUED", false⟩
        "completed" "j1").queue = [] := by
  have h := spec_c5 ⟨["j2"], some ⟨"j1", true⟩, fun _ => "QUEUED", false⟩
    "completed" "j1" (by decide)
  have h2 := (h.1 ⟨"j1", true⟩ rfl rfl).2 "j2" [] rfl
  exact ⟨by decide, h2.1, h2.2.1, h2.2.2⟩

/-- If a job has no pending entry, its `find?` is `none`. -/
lemma find?_eq_none_of_tableGet_none (m : ApprovalTable) (job : String)
    (h : tableGet m job = none) : (m.find? fun e => e.1 == job) = none := by
  cases hf : m.find? fun e => e.1 == job with
  | none => rfl
  | some e => rw [tableGet, hf] at h; simp at h

/-- Popping an absent key leaves the table unchanged. -/
lemma filter_eq_self_of_tableGet_none (m : ApprovalTable) (job : String)
    (h : tableGet m job = none) : (m.filter fun e => !(e.1 == job)) = m := by
  apply List.filter_eq_self.mpr
  intro a ha
  have := List.find?_eq_none.mp (find?_eq_none_of_tableGet_none m job h) a ha
  simpa using this

/-- After removing a job's entries, the job has no pending entry. -/
lemma tableGet_filter_none (m : ApprovalTable) (job : String) :
    tableGet (m.filter fun e => !(e.1 == job)) job = none := by
  have : ((m.filter fun e => !(e.1 == job)).find? fun e => e.1 == job) = none := by
    rw [List.find?_eq_none]
    intro x hx
    rw [List.mem_filter] at hx
    simpa using hx.2
  rw [tableGet, this]
  rfl

/-- Counterexample to claim C6 at a concrete input: after
`register_pending("job-1","tu-1",...)`, the call
`handle_approve("job-1","tu-wrong")` returns false but does NOT leave the
pending-approval table unchanged — `dict.pop` has already consumed the
entry (approvals.py line 49), so a subsequent call with the correct
`tool_use_id` also returns false. -/
theorem spec_c6_cex :
    tableGet (registerPending [] "job-1" "tu-1" "bash" "C123" "ts-1") "job-1" =
      some ⟨"tu-1", "bash", "C123", "ts-1"⟩ ∧
    (handleApprove (registerPending [] "job-1" "tu-1" "bash" "C123" "ts-1")
        "job-1" "tu-wrong" false).2.1 = false ∧
    tableGet (handleApprove (registerPending [] "job-1" "tu-1" "bash" "C123" "ts-1")
        "job-1" "tu-wrong" false).1 "job-1" = none ∧
    (handleApprove (handleApprove (registerPending [] "job-1" "tu-1" "bash" "C123" "ts-1")
        "job-1" "tu-wrong" false).1 "job-1" "tu-1" false).2.1 = false := by
  decide

/-- Claim C6 as amended: the first `handle_approve` call whose `tool_use_id`
matches the registered pending entry returns true, consumes the entry and
sends the approve RPC; a call for a job with no pending entry returns false
and leaves the table unchanged; but a call with a pending entry whose
`tool_use_id` does not match returns false, sends nothing, and ALSO consumes
(removes) the entry. -/
theorem spec_c6_amended :
    ∀ (m : ApprovalTable) (job tu : String) (auto : Bool),
      (tableGet m job = none → handleApprove m job tu auto = (m, false, [])) ∧
      (∀ p : PendingApproval, tableGet m job = some p →
        (p.tool_use_id = tu →
          (handleApprove m job tu auto).2.1 = true ∧
          (handleApprove m job tu auto).2.2 = [RunnerRpc.sendApproval job tu true auto] ∧
          tableGet (handleApprove m job tu auto).1 job = none) ∧
        (p.tool_use_id ≠ tu →
          (handleApprove m job tu auto).2.1 = false ∧
          (handleApprove m job tu auto).2.2 = [] ∧
          tableGet (handleApprove m job tu auto).1 job = none)) := by
  intro m job tu auto
  constructor
  · intro h
    simp only [handleApprove, tablePop, h]
    rw [filter_eq_self_of_tableGet_none m job h]
  · intro p hp
    constructor
    · intro htu
      have he : handleApprove m job tu auto =
          (m.filter fun e => !(e.1 == job), true,
           [RunnerRpc.sendApproval job tu true auto]) := by
        simp only [handleApprove, tablePop, hp]
        rw [if_neg (by simp [htu])]
      rw [he]
      exact ⟨rfl, rfl, tableGet_filter_none m job⟩
    · intro htu
      have he : handleApprove m job tu auto =
          (m.filter fun e => !(e.1 == job), false, []) := by
        simp only [handleApprove, tablePop, hp]
        rw [if_pos htu]
      rw [he]
      exact ⟨rfl, rfl, tableGet_filter_none m job⟩

/-- Witness for C6's amended claim at concrete inputs: a matching call on a
one-entry table, and a mismatching call on the same table. -/
theorem spec_c6_amended_witness :
    tableGet [("job-1", (⟨"tu-1", "bash", "C123", "ts-1"⟩ : PendingApproval))] "job-1" =
      some ⟨"tu-1", "bash", "C123", "ts-1"⟩ ∧
    (handleApprove [("job-1", ⟨"tu-1", "bash", "C123", "ts-1"⟩)] "job-1" "tu-1" false).2.1 = true ∧
    (handleApprove [("job-1", ⟨"tu-1", "bash", "C123", "ts-1"⟩)] "job-1" "tu-1" false).2.2 =
      [RunnerRpc.sendApproval "job-1" "tu-1" true false] ∧
    tableGet (handleApprove [("job-1", ⟨"tu-1", "bash", "C123", "ts-1"⟩)]
        "job-1" "tu-1" false).1 "job-1" = none ∧
    ("tu-wrong" : String) ≠ "tu-1" ∧
    (handleApprove [("job-1", ⟨"tu-1", "bash", "C123", "ts-1"⟩)] "job-1" "tu-wrong" false).2.1 = false := by
  have h := (spec_c6_amended [("job-1", ⟨"tu-1", "bash", "C123", "ts-1"⟩)]
    "job-1" "tu-1" false).2 ⟨"tu-1", "bash", "C123", "ts-1"⟩ rfl
  have h1 := h.1 rfl
  have g := (spec_c6_amended [("job-1", ⟨"tu-1", "bash", "C123", "ts-1"⟩)]
    "job-1" "tu-wrong" false).2 ⟨"tu-1", "bash", "C123", "ts-1"⟩ rfl
  have g1 := g.2 (by decide)
  exact ⟨rfl, h1.1, h1.2.1, h1.2.2, by decide, g1.1⟩

/-- Claim C7: on the approval-timeout path of `_can_use_tool` (agent.py lines
301-313) the session emits an `approval_timeout` event, clears
`pending_approval`, restores status to `running`, and returns Deny whose
message contains "approval timed out after N seconds" with N the configured
`approval_timeout`; it never returns Allow there (the result is the Deny
value shown, which is not `PermResult.allow`). -/
theorem spec_c7 :
    ∀ (s : Session) (tool_name tu : String),
      (canUseToolTimeout s tool_name tu).1.pending_approval = none ∧
      (canUseToolTimeout s tool_name tu).1.status = "running" ∧
      (canUseToolTimeout s tool_name tu).2.1 =
        mapApprovalTimeout tool_name (some tu) s.approval_timeout ∧
      (canUseToolTimeout s tool_name tu).2.1.event_type = "approval_timeout" ∧
      (∃ pre post : String, (canUseToolTimeout s tool_name tu).2.2 =
        PermResult.deny (pre ++ ("approval timed out after " ++
          toString s.approval_timeout ++ " seconds") ++ post)) := by
  intro s tool_name tu
  exact ⟨rfl, rfl, rfl, rfl,
    ⟨"Tool call '" ++ tool_name ++ "' was denied automatically — ", ".", rfl⟩⟩

/-- Claim C8 (code evaluation): `RunnerHandler.do_POST` (handler.py lines
57-85) has no `end` route, so `POST /jobs/{id}/end` answers
`404 {"error": "Not found"}` for every body and every session registry —
also when a session exists for the job — and the registry is returned
unchanged, so no session's graceful end is ever requested. -/
theorem spec_c8 :
    ∀ (body : List (String × JVal)) (sessions : SessionMap),
      doPost "/jobs/test-1/end" body sessions =
        (⟨404, [("error", JVal.s "Not found")]⟩, sessions) ∧
      doPost "/jobs/job-7/end" body sessions =
        (⟨404, [("error", JVal.s "Not found")]⟩, sessions) := by
  intro body sessions
  exact ⟨rfl, rfl⟩

/-- Python slicing never yields more than `n` characters. -/
lemma pyslice_length (s : String) (n : Nat) : (pyslice s n).length = min n s.length := by
  show (s.data.take n).length = min n s.data.length
  simp

/-- Counterexample to claim C9 at a concrete input: for the `Read` tool with
a 250-character `file_path`, `_summarize_input` (event_bridge.py line 157)
returns the raw path untruncated, so the summary exceeds 200 characters. -/
theorem spec_c9_cex :
    summarizeInput "Read" [("file_path", String.mk (List.replicate 250 'a'))] =
      String.mk (List.replicate 250 'a') ∧
    200 < (summarizeInput "Read"
      [("file_path", String.mk (List.replicate 250 'a'))]).length := by
  have h : summarizeInput "Read" [("file_path", String.mk (List.replicate 250 'a'))] =
      String.mk (List.replicate 250 'a') := by
    have e : ∀ d : ToolInput, summarizeInput "Read" d = dget d "file_path" := fun d => rfl
    rw [e]
    show ((List.find? _ _).map _).getD "" = _
    rw [List.find?_cons_of_pos _ (by decide)]
    rfl
  refine ⟨h, ?_⟩
  rw [h]
  show 200 < (List.replicate 250 'a').length
  simp

/-- Claim C9 as amended: the display summary is at most 200 characters for
the `Bash` tool and for every unrecognized tool (the `json.dumps` fallback),
but for `Read`/`Write`/`Edit` (file_path), `Glob`/`Grep` (pattern),
`WebSearch` (query) and `WebFetch` (url) the summary is the raw projected
field, untruncated, and can exceed 200 characters. -/
theorem spec_c9_amended :
    ∀ (tool_name : String) (tool_input : ToolInput),
      (tool_name ∉ ["Read", "Write", "Edit", "Glob", "Grep", "WebSearch", "WebFetch"] →
        (summarizeInput tool_name tool_input).length ≤ 200) ∧
      (summarizeInput "Read" tool_input = dget tool_input "file_path") ∧
      (summarizeInput "Write" tool_input = dget tool_input "file_path") ∧
      (summarizeInput "Edit" tool_input = dget tool_input "file_path") ∧
      (summarizeInput "Glob" tool_input = dget tool_input "pattern") ∧
      (summarizeInput "Grep" tool_input = dget tool_input "pattern") ∧
      (summarizeInput "WebSearch" tool_input = dget tool_input "query") ∧
      (summarizeInput "WebFetch" tool_input = dget tool_input "url") := by
  intro tool_name tool_input
  refine ⟨?_, rfl, rfl, rfl, rfl, rfl, rfl, rfl⟩
  intro hmem
  simp only [List.mem_cons, List.not_mem_nil, or_false, not_or] at hmem
  obtain ⟨h1, h2, h3, h4, h5, h6, h7⟩ := hmem
  by_cases hb : tool_name = "Bash"
  · subst hb
    have e : summarizeInput "Bash" tool_input =
        if (dget tool_input "command").length ≤ 200 then
          pyslice (dget tool_input "command") 200
        else pyslice (dget tool_input "command") 197 ++ "..." := by
      simp [summarizeInput]
    rw [e]
    by_cases hlen : (dget tool_input "command").length ≤ 200
    · rw [if_pos hlen, pyslice_length]
      exact Nat.min_le_left _ _
    · rw [if_neg hlen, String.length_append, pyslice_length]
      have hm : min 197 (dget tool_input "command").length = 197 := by omega
      have hd : ("..." : String).length = 3 := rfl
      rw [hm, hd]
  · have e : summarizeInput tool_name tool_input = pyslice (pyDumps tool_input) 200 := by
      simp [summarizeInput, hb, h1, h2, h3, h4, h5, h6, h7]
    rw [e, pyslice_length]
    exact Nat.min_le_left _ _

/-- Witness for C9's amended claim at a concrete input: the `Bash` tool with
a short command. -/
theorem spec_c9_amended_witness :
    (("Bash" : String) ∉ ["Read", "Write", "Edit", "Glob", "Grep", "WebSearch", "WebFetch"]) ∧
    (summarizeInput "Bash" [("command", "echo hi")]).length ≤ 200 :=
  ⟨by decide, (spec_c9_amended "Bash" [("command", "echo hi")]).1 (by decide)⟩

/-- Claim C10: `AgentSession.approve` and `AgentSession.deny` (agent.py lines
104-123) never touch `pending_approval` (only the parked callback clears
it), so while an approval is parked, every repeated `approve`/`deny` call
with the matching `tool_use_id` returns true — not only the first. -/
theorem spec_c10 :
    ∀ (s : Session) (tu : String) (auto : Bool),
      ((s.approve tu auto).1.pending_approval = s.pending_approval) ∧
      ((s.deny tu).1.pending_approval = s.pending_approval) ∧
      (∀ p : SessionPending, s.pending_approval = some p → p.tool_use_id = tu →
        (s.approve tu auto).2 = true ∧
        (((s.approve tu auto).1).approve tu auto).2 = true ∧
        (((s.approve tu auto).1).deny tu).2 = true ∧
        (s.deny tu).2 = true ∧
        (((s.deny tu).1).approve tu auto).2 = true) := by
  intro s tu auto
  cases hp0 : s.pending_approval with
  | none =>
    refine ⟨?_, ?_, ?_⟩
    · simp [Session.approve, hp0]
    · simp [Session.deny, hp0]
    · intro p hp
      exact absurd hp (by simp)
  | some p0 =>
    refine ⟨?_, ?_, ?_⟩
    · simp only [Session.approve, hp0]
      split
      · exact hp0
      · rfl
    · simp only [Session.deny, hp0]
      split
      · exact hp0
      · rfl
    · intro p hp htu
      rw [Option.some_inj] at hp
      subst hp
      simp [Session.approve, Session.deny, hp0, htu]

/-- Witness for C10 at a concrete input: a parked Bash approval, approved
twice and then denied, all three calls returning true with the pending
entry untouched by `approve`/`deny`. -/
theorem spec_c10_witness :
    parkedSession.pending_approval = some ⟨"tu-1", "Bash", []⟩ ∧
    (SessionPending.tool_use_id ⟨"tu-1", "Bash", []⟩ = "tu-1") ∧
    (parkedSession.approve "tu-1" false).2 = true ∧
    ((parkedSession.approve "tu-1" false).1.approve "tu-1" false).2 = true ∧
    ((parkedSession.approve "tu-1" false).1.deny "tu-1").2 = true ∧
    (parkedSession.approve "tu-1" false).1.pending_approval =
      some ⟨"tu-1", "Bash", []⟩ := by
  have h := spec_c10 parkedSession "tu-1" false
  have h3 := h.2.2 ⟨"tu-1", "Bash", []⟩ rfl rfl
  exact ⟨rfl, rfl, h3.1, h3.2.1, h3.2.2.1, h.1⟩

end SpecBot
